import Mathlib

/-!
Shallow embedding of `examples/kdapp-mcp-server/tictactoe_coordinator.py`
(class `TicTacToeCoordinator`) and proofs about it.

Modelling conventions:
* A board cell is `Option Mark` (`none` is Python's `None`), the board is a
  total function `Fin 3 → Fin 3 → Cell` standing for the 3x3 list of lists.
* JSON values are the inductive `Json`; Python truthiness (`if not result`)
  is `Json.isTruthy`.
* A line read from the subprocess stream is abstracted by its parse outcome:
  `some j` for a line that `json.loads` parses to `j`, `none` for a line that
  fails to parse (log noise).  The 5-second wall-clock deadline of
  `send_mcp_request` is abstracted by exhaustion of the list of lines that
  arrive before the deadline.
* Python's `random.choice(lst)` is modelled by an explicit draw parameter
  `k : Nat`, selecting `lst[k % len(lst)]`; as `k` ranges over `Nat` this
  covers every possible draw.
* An uncaught Python exception is the `Except.error` branch of `Except`;
  code that does not catch it propagates the error monadically.
-/

namespace TTT

/-- A player mark, Python's strings "X" and "O". -/
inductive Mark where
  | X : Mark
  | O : Mark
deriving DecidableEq

instance : Fintype Mark :=
  ⟨⟨{Mark.X, Mark.O}, by decide⟩, by intro x; cases x <;> decide⟩

/-- Switching sides: `self.current_player = "O" if self.current_player == "X" else "X"`. -/
def Mark.other : Mark → Mark
  | Mark.X => Mark.O
  | Mark.O => Mark.X

/-- A board cell: `None`, "X" or "O". -/
abbrev Cell := Option Mark

/-- The 3x3 board `self.game_board`, a total view of the Python list of lists. -/
abbrev Board := Fin 3 → Fin 3 → Cell

/-- Build a board from its nine cells, row major. -/
def mkBoard (c00 c01 c02 c10 c11 c12 c20 c21 c22 : Cell) : Board := fun i j =>
  if i.val = 0 then (if j.val = 0 then c00 else if j.val = 1 then c01 else c02)
  else if i.val = 1 then (if j.val = 0 then c10 else if j.val = 1 then c11 else c12)
  else (if j.val = 0 then c20 else if j.val = 1 then c21 else c22)

theorem mkBoard_eta (b : Board) :
    mkBoard (b 0 0) (b 0 1) (b 0 2) (b 1 0) (b 1 1) (b 1 2) (b 2 0) (b 2 1) (b 2 2) = b := by
  funext i j
  fin_cases i <;> fin_cases j <;> rfl

/-- JSON values as handled by the coordinator (`json.loads` results). -/
inductive Json where
  | null : Json
  | bool : Bool → Json
  | num : Int → Json
  | str : String → Json
  | arr : List Json → Json
  | obj : List (String × Json) → Json

/-- Python truthiness of a JSON value: `None`, `False`, `0`, `""`, `[]`, `{ }`
are falsy, everything else truthy. -/
def Json.isTruthy : Json → Bool
  | Json.null => false
  | Json.bool b => b
  | Json.num n => decide (n ≠ 0)
  | Json.str s => decide (s ≠ "")
  | Json.arr [] => false
  | Json.arr (_ :: _) => true
  | Json.obj [] => false
  | Json.obj (_ :: _) => true

/-- Python `x is None` on a JSON value. -/
def Json.isNull : Json → Bool
  | Json.null => true
  | _ => false

/-- Python `d.get(key)` / `d[key]` on a JSON object's field list. -/
def lookupField (key : String) : List (String × Json) → Option Json
  | [] => none
  | (k, v) :: rest => if k = key then some v else lookupField key rest

/-- Python `key in d`. -/
def hasField (key : String) (fields : List (String × Json)) : Bool :=
  (lookupField key fields).isSome

/-- The loop `for key in ('tx_hash','txid','tx','transaction','hash'): if key in
result and result[key]: return result[key]` — first key present with a truthy value. -/
def findDirectKey : List String → List (String × Json) → Option Json
  | [], _ => none
  | key :: keys, rf =>
    match lookupField key rf with
    | some v => if v.isTruthy then some v else findDirectKey keys rf
    | none => findDirectKey keys rf

/-- The loop `for key in ('tx_hash','txid','hash'): if key in result['receipt']:
return result['receipt'][key]` — first key present, no truthiness filter. -/
def findReceiptKey : List String → List (String × Json) → Option Json
  | [], _ => none
  | key :: keys, rec =>
    match lookupField key rec with
    | some v => some v
    | none => findReceiptKey keys rec

/-- The direct field names probed by `extract_tx_hash`, in source order. -/
def directKeys : List String := ["tx_hash", "txid", "tx", "transaction", "hash"]

/-- The nested `receipt` field names probed by `extract_tx_hash`, in source order. -/
def receiptKeys : List String := ["tx_hash", "txid", "hash"]

/-- `TicTacToeCoordinator.extract_tx_hash` (lines 178–203). -/
def extract_tx_hash (response : Json) : Option Json :=
  match response with
  | Json.obj fields =>
    match lookupField "result" fields with
    | none => none
    | some result =>
      if result.isTruthy then
        match result with
        | Json.obj rf =>
          (match findDirectKey directKeys rf with
           | some v => some v
           | none =>
             match lookupField "receipt" rf with
             | some (Json.obj rec) => findReceiptKey receiptKeys rec
             | _ => none)
        | Json.str s => if 8 ≤ s.length then some (Json.str s) else none
        | _ => none
      else none
  | _ => none

/-- The success/failure decision of `TicTacToeCoordinator.execute_move`
(lines 243–261), applied to an already-received response value. -/
def execute_move (require_onchain : Bool) (response : Json) : Bool :=
  match response with
  | Json.obj fields =>
    if hasField "error" fields then false
    else
      match lookupField "result" fields with
      | none => false
      | some result =>
        if result.isNull && require_onchain then false
        else if require_onchain then
          match extract_tx_hash (Json.obj fields) with
          | none => false
          | some v => v.isTruthy
        else true
  | _ => false

/-- A line read from the subprocess's combined output stream, abstracted by
its parse outcome: `some j` if `json.loads` parses the line to `j`, `none`
for a non-JSON log line. -/
abbrev Line := Option Json

/-- The one failure mode of `send_mcp_request`: the `TimeoutError` raised when
no JSON-parseable line arrives before the 5-second deadline. -/
inductive RpcFailure where
  | timeout : RpcFailure
deriving DecidableEq

/-- The response-reading loop of `TicTacToeCoordinator.send_mcp_request`
(lines 552–572): skip every line that fails to parse as JSON, return the first
line that parses; the list holds the lines that arrive before the deadline,
so exhausting it raises `TimeoutError`. -/
def read_response : List Line → Except RpcFailure Json
  | [] => Except.error RpcFailure.timeout
  | line :: rest =>
    match line with
    | some j => Except.ok j
    | none => read_response rest

/-- `TicTacToeCoordinator.execute_move` composed with the channel: the call to
`send_mcp_request` is not wrapped in try/except, so a `TimeoutError` propagates
out of `execute_move` unchanged. -/
def execute_move_rpc (require_onchain : Bool) (channel : Except RpcFailure Json) :
    Except RpcFailure Bool :=
  match channel with
  | Except.error e => Except.error e
  | Except.ok response => Except.ok (execute_move require_onchain response)

/-- Outcome of a finished game as reported by `check_winner`. -/
inductive GameResult where
  | winner : Mark → GameResult
  | draw : GameResult
deriving DecidableEq

/-- `TicTacToeCoordinator.check_winner` (lines 464–491): rows, then columns,
then the two diagonals, in source order; then the full-board draw check. -/
def check_winner (b : Board) : Option GameResult :=
  if b 0 0 = b 0 1 ∧ b 0 1 = b 0 2 ∧ b 0 0 ≠ none then (b 0 0).map GameResult.winner
  else if b 1 0 = b 1 1 ∧ b 1 1 = b 1 2 ∧ b 1 0 ≠ none then (b 1 0).map GameResult.winner
  else if b 2 0 = b 2 1 ∧ b 2 1 = b 2 2 ∧ b 2 0 ≠ none then (b 2 0).map GameResult.winner
  else if b 0 0 = b 1 0 ∧ b 1 0 = b 2 0 ∧ b 0 0 ≠ none then (b 0 0).map GameResult.winner
  else if b 0 1 = b 1 1 ∧ b 1 1 = b 2 1 ∧ b 0 1 ≠ none then (b 0 1).map GameResult.winner
  else if b 0 2 = b 1 2 ∧ b 1 2 = b 2 2 ∧ b 0 2 ≠ none then (b 0 2).map GameResult.winner
  else if b 0 0 = b 1 1 ∧ b 1 1 = b 2 2 ∧ b 0 0 ≠ none then (b 0 0).map GameResult.winner
  else if b 0 2 = b 1 1 ∧ b 1 1 = b 2 0 ∧ b 0 2 ≠ none then (b 0 2).map GameResult.winner
  else if ∀ i j : Fin 3, b i j ≠ none then some GameResult.draw
  else none

/-- `TicTacToeCoordinator.update_board` (lines 493–495). -/
def update_board (b : Board) (row col : Fin 3) (player : Mark) : Board :=
  fun i j => if i = row ∧ j = col then some player else b i j

/-- `TicTacToeCoordinator.is_valid_move_candidate` (lines 436–445): `None`
coordinates are rejected, then bounds `0 <= r <= 2`, `0 <= c <= 2`, then the
target cell must be empty. -/
def is_valid_move_candidate (b : Board) (row col : Option Int) : Bool :=
  match row, col with
  | some r, some c =>
    if h : 0 ≤ r ∧ r ≤ 2 ∧ 0 ≤ c ∧ c ≤ 2 then
      (b ⟨r.toNat, by omega⟩ ⟨c.toNat, by omega⟩).isNone
    else false
  | _, _ => false

/-- All nine cells in the row-major order of the Python `for i ... for j` loops. -/
def allCells : List (Fin 3 × Fin 3) :=
  [(0, 0), (0, 1), (0, 2), (1, 0), (1, 1), (1, 2), (2, 0), (2, 1), (2, 2)]

/-- `empty_cells` as built by `get_default_move` (lines 405–409). -/
def empty_cells (b : Board) : List (Fin 3 × Fin 3) :=
  allCells.filter (fun p => (b p.1 p.2).isNone)

/-- The `center` list of `get_default_move`. -/
def centerList : List (Fin 3 × Fin 3) := [(1, 1)]

/-- The `corners` list of `get_default_move`, in source order. -/
def cornerList : List (Fin 3 × Fin 3) := [(0, 0), (0, 2), (2, 0), (2, 2)]

/-- The `edges` list of `get_default_move`, in source order. -/
def edgeList : List (Fin 3 × Fin 3) := [(0, 1), (1, 0), (1, 2), (2, 1)]

/-- Python `random.choice(l)` on a non-empty list, with the random draw made
explicit as `k`: the element at index `k % len(l)`. -/
def choice (k : Nat) (l : List (Fin 3 × Fin 3)) : Fin 3 × Fin 3 :=
  l.getD (k % l.length) (0, 0)

/-- `available_center` of `get_default_move`. -/
def available_center (b : Board) : List (Fin 3 × Fin 3) :=
  centerList.filter (fun p => decide (p ∈ empty_cells b))

/-- `available_corners` of `get_default_move`. -/
def available_corners (b : Board) : List (Fin 3 × Fin 3) :=
  cornerList.filter (fun p => decide (p ∈ empty_cells b))

/-- `available_edges` of `get_default_move`. -/
def available_edges (b : Board) : List (Fin 3 × Fin 3) :=
  edgeList.filter (fun p => decide (p ∈ empty_cells b))

/-- `TicTacToeCoordinator.get_default_move` (lines 400–434): center first, then
an unoccupied corner, then an unoccupied edge, then any remaining empty cell;
`(0, 0)` when the board is full.  `k` is the `random.choice` draw. -/
def get_default_move (b : Board) (k : Nat) : Fin 3 × Fin 3 :=
  if (empty_cells b).isEmpty then (0, 0)
  else if !(available_center b).isEmpty then choice k (available_center b)
  else if !(available_corners b).isEmpty then choice k (available_corners b)
  else if !(available_edges b).isEmpty then choice k (available_edges b)
  else choice k (empty_cells b)

/-- The alternative-cell scan of `play_game` (lines 633–641): the first empty
cell, row major, that differs from the just-rejected coordinate. -/
def find_alternative (b : Board) (row col : Fin 3) : Option (Fin 3 × Fin 3) :=
  allCells.find? (fun p => (b p.1 p.2).isNone && !(decide (p = (row, col))))

/-- The fallback coordinate actually submitted by `play_game` after a rejection
(lines 628–641): `get_default_move`, replaced by the first differing empty cell
when it coincides with the just-rejected move and such a cell exists. -/
def submitted_fallback (b : Board) (row col : Fin 3) (k : Nat) : Fin 3 × Fin 3 :=
  let d := get_default_move b k
  if d = (row, col) then
    match find_alternative b row col with
    | some p => p
    | none => d
  else d

/-- The mutable state of `play_game`'s loop. -/
structure GameState where
  board : Board
  current_player : Mark
  move_count : Nat
  consecutive_failures : Nat

/-- The accepted-move branch of `play_game` (lines 613–622 and 643–650):
write the mark, flip the side to move, bump the move counter, reset the
consecutive-failure counter. -/
def accept_move (s : GameState) (row col : Fin 3) : GameState :=
  { board := update_board s.board row col s.current_player
    current_player := s.current_player.other
    move_count := s.move_count + 1
    consecutive_failures := 0 }

/-- One ply of `play_game` (lines 612–653), from the submission of the
candidate `(row, col)` on: `resp1` is the channel outcome of the primary
submission, `resp2` of the fallback submission, `k` the `random.choice` draw
of `get_default_move`.  A channel timeout propagates (nothing catches it). -/
def play_ply (require_onchain : Bool) (s : GameState) (row col : Fin 3) (k : Nat)
    (resp1 resp2 : Except RpcFailure Json) : Except RpcFailure GameState :=
  match resp1 with
  | Except.error e => Except.error e
  | Except.ok r1 =>
    if execute_move require_onchain r1 then Except.ok (accept_move s row col)
    else
      let s1 : GameState := { s with consecutive_failures := s.consecutive_failures + 1 }
      let fb := submitted_fallback s.board row col k
      match resp2 with
      | Except.error e => Except.error e
      | Except.ok r2 =>
        if execute_move require_onchain r2 then Except.ok (accept_move s1 fb.1 fb.2)
        else Except.ok s1

/-- The external inputs of one ply: the candidate move proposed for the side
to move, the `random.choice` draw, and the channel outcomes of the primary and
fallback submissions. -/
structure PlyInput where
  move : Fin 3 × Fin 3
  draw : Nat
  resp1 : Except RpcFailure Json
  resp2 : Except RpcFailure Json

/-- The `while move_count < max_moves and consecutive_failures <
max_consecutive_failures` loop of `play_game` (lines 588–653), with the winner
check at the top of each iteration.  `fuel` only bounds recursion depth; the
loop itself runs at most 39 iterations, so any larger fuel is exact. -/
def run_game (require_onchain : Bool) : Nat → GameState → (Nat → PlyInput) →
    Except RpcFailure GameState
  | 0, s, _ => Except.ok s
  | fuel + 1, s, ins =>
    if s.move_count < 9 ∧ s.consecutive_failures < 3 then
      match check_winner s.board with
      | some _ => Except.ok s
      | none =>
        match play_ply require_onchain s (ins 0).move.1 (ins 0).move.2 (ins 0).draw
            (ins 0).resp1 (ins 0).resp2 with
        | Except.error e => Except.error e
        | Except.ok s' => run_game require_onchain fuel s' (fun n => ins (n + 1))
    else Except.ok s

/-! Helper lemmas shared by several theorems. -/

/-- A stream that yields no JSON-parseable line before the deadline makes
`send_mcp_request` raise its `TimeoutError`. -/
theorem read_response_all_none (lines : List Line) (h : ∀ l ∈ lines, l = none) :
    read_response lines = Except.error RpcFailure.timeout := by
  induction lines with
  | nil => rfl
  | cons line rest ih =>
    have hl : line = none := h line (List.mem_cons_self line rest)
    subst hl
    exact ih (fun l hl => h l (List.mem_cons_of_mem _ hl))

/-- The completely empty board, `[[None]*3]*3`. -/
def emptyBoard : Board := fun _ _ => none

/-! Claim theorems. -/

/-- C5: `send_mcp_request` discards every line that fails to parse as JSON and
returns the first line that parses; a stream with no JSON-parseable line
before the deadline fails with a timeout instead of returning a response. -/
theorem read_response_first_json :
    (∀ (pre rest : List Line) (j : Json), (∀ l ∈ pre, l = none) →
      read_response (pre ++ some j :: rest) = Except.ok j) ∧
    (∀ lines : List Line, (∀ l ∈ lines, l = none) →
      read_response lines = Except.error RpcFailure.timeout) := by
  constructor
  · intro pre rest j hpre
    induction pre with
    | nil => rfl
    | cons line p ih =>
      have hl : line = none := hpre line (List.mem_cons_self line p)
      subst hl
      exact ih (fun l hl => hpre l (List.mem_cons_of_mem _ hl))
  · exact read_response_all_none

/-- Witness for C5 at a concrete stream: one log line before the JSON line,
and a two-log-line stream that times out. -/
theorem read_response_first_json_witness :
    read_response ([none] ++ some Json.null :: [some (Json.str "late")]) =
      Except.ok Json.null ∧
    read_response [none, none] = Except.error RpcFailure.timeout :=
  ⟨read_response_first_json.1 [none] [some (Json.str "late")] Json.null (by simp),
   read_response_first_json.2 [none, none] (by simp)⟩

/-- C10: a response carrying an `error` field is rejected by `execute_move`
whatever else it carries and whatever the enforcement setting is. -/
theorem execute_move_error_field (require_onchain : Bool)
    (fields : List (String × Json)) (h : hasField "error" fields = true) :
    execute_move require_onchain (Json.obj fields) = false := by
  simp [execute_move, h]

/-- Witness for C10: a response with both an `error` and a truthy `result`,
with enforcement off, is still rejected. -/
theorem execute_move_error_field_witness :
    execute_move false
      (Json.obj [("error", Json.str "boom"), ("result", Json.str "abcdefgh")]) = false :=
  execute_move_error_field false _ rfl

/-- C2: a response with a `result` field, no `error` field and no extractable
transaction identifier is accepted by `execute_move` exactly when on-chain
enforcement is inactive. -/
theorem execute_move_no_tx (require_onchain : Bool) (fields : List (String × Json))
    (hres : hasField "result" fields = true)
    (herr : hasField "error" fields = false)
    (htx : extract_tx_hash (Json.obj fields) = none) :
    (execute_move require_onchain (Json.obj fields) = true ↔ require_onchain = false) := by
  obtain ⟨result, hr⟩ : ∃ r, lookupField "result" fields = some r := by
    cases hl : lookupField "result" fields with
    | none => rw [hasField, hl] at hres; cases hres
    | some r => exact ⟨r, rfl⟩
  cases require_onchain with
  | false => simp [execute_move, herr, hr]
  | true =>
    simp only [execute_move, herr, Bool.false_eq_true, if_false, hr, htx, Bool.and_true]
    cases hn : result.isNull <;> simp

/-- Witness for C2 at the explicitly-null result of the spec: accepted with
enforcement off. -/
theorem execute_move_no_tx_witness :
    (execute_move false (Json.obj [("result", Json.null)]) = true ↔ false = false) :=
  execute_move_no_tx false [("result", Json.null)] rfl rfl rfl

/-- C1 counterexample: a call of `send_mcp_request` that sees no JSON-parseable
line raises `TimeoutError`; since `execute_move` does not catch it, the outcome
of the move is the propagated error and in particular not a reported failure
(`False`), contradicting the claim that the timeout is absorbed as a rejected
move. -/
theorem rpc_timeout_not_absorbed :
    execute_move_rpc true (read_response [(none : Line)]) =
      Except.error RpcFailure.timeout ∧
    execute_move_rpc true (read_response [(none : Line)]) ≠ Except.ok false := by
  refine ⟨rfl, ?_⟩
  intro h
  rw [show read_response [(none : Line)] = Except.error RpcFailure.timeout from rfl] at h
  exact Except.noConfusion h

/-- C1 as amended: when no JSON-parseable line arrives before the deadline, the
`TimeoutError` of `send_mcp_request` escalates uncaught out of `execute_move`
and out of the game loop, aborting the coordination run; it is not absorbed as
a rejected move. -/
theorem rpc_timeout_escalates (lines : List Line) (hnj : ∀ l ∈ lines, l = none)
    (require_onchain : Bool) (fuel : Nat) (s : GameState) (ins : Nat → PlyInput)
    (hmc : s.move_count < 9) (hcf : s.consecutive_failures < 3)
    (hw : check_winner s.board = none)
    (hin : (ins 0).resp1 = read_response lines) :
    execute_move_rpc require_onchain (read_response lines) =
      Except.error RpcFailure.timeout ∧
    run_game require_onchain (fuel + 1) s ins = Except.error RpcFailure.timeout := by
  have ht : read_response lines = Except.error RpcFailure.timeout :=
    read_response_all_none lines hnj
  constructor
  · rw [ht]; rfl
  · rw [ht] at hin
    simp only [run_game, if_pos (And.intro hmc hcf), hw, hin, play_ply]

/-- Witness for C1's amended theorem at a concrete stream and start state. -/
theorem rpc_timeout_escalates_witness :
    execute_move_rpc true (read_response [(none : Line), (none : Line)]) =
      Except.error RpcFailure.timeout ∧
    run_game true 1 (GameState.mk emptyBoard Mark.X 0 0)
      (fun _ => PlyInput.mk (0, 0) 0 (read_response [(none : Line), (none : Line)])
        (Except.ok Json.null)) = Except.error RpcFailure.timeout :=
  rpc_timeout_escalates [none, none] (by simp) true 0
    (GameState.mk emptyBoard Mark.X 0 0)
    (fun _ => PlyInput.mk (0, 0) 0 (read_response [(none : Line), (none : Line)])
      (Except.ok Json.null))
    (by decide) (by decide) (by decide) rfl

/-- C8: within one ply, an accepted move (primary or fallback) flips the side
to move exactly once, and a fully rejected ply (primary and fallback both
rejected) leaves the side to move unchanged. -/
theorem play_ply_turn (require_onchain : Bool) (s : GameState) (row col : Fin 3)
    (k : Nat) (r1 r2 : Json) (s' : GameState)
    (h : play_ply require_onchain s row col k (Except.ok r1) (Except.ok r2) =
      Except.ok s') :
    ((execute_move require_onchain r1 = true ∨ execute_move require_onchain r2 = true) →
      s'.current_player = s.current_player.other) ∧
    (execute_move require_onchain r1 = false → execute_move require_onchain r2 = false →
      s'.current_player = s.current_player) := by
  by_cases h1 : execute_move require_onchain r1 = true
  · simp only [play_ply, h1, if_true, Except.ok.injEq] at h
    subst h
    refine ⟨fun _ => ?_, fun hf1 _ => ?_⟩
    · rfl
    · rw [h1] at hf1; cases hf1
  · have h1' : execute_move require_onchain r1 = false := by
      simpa using h1
    simp only [play_ply, h1', Bool.false_eq_true, if_false] at h
    by_cases h2 : execute_move require_onchain r2 = true
    · simp only [h2, if_true, Except.ok.injEq] at h
      subst h
      refine ⟨fun _ => ?_, fun _ hf2 => ?_⟩
      · rfl
      · rw [h2] at hf2; cases hf2
    · have h2' : execute_move require_onchain r2 = false := by
        simpa using h2
      simp only [h2', Bool.false_eq_true, if_false, Except.ok.injEq] at h
      subst h
      refine ⟨fun hor => ?_, fun _ _ => rfl⟩
      cases hor with
      | inl ha => rw [h1'] at ha; cases ha
      | inr ha => rw [h2'] at ha; cases ha

/-- Witness for C8: on the empty board, an accepted primary move flips X to O. -/
theorem play_ply_turn_witness :
    (accept_move (GameState.mk emptyBoard Mark.X 0 0) 0 0).current_player =
      (GameState.mk emptyBoard Mark.X 0 0).current_player.other :=
  (play_ply_turn false (GameState.mk emptyBoard Mark.X 0 0) 0 0 0
      (Json.obj [("result", Json.str "abcdefgh")])
      (Json.obj [("result", Json.str "abcdefgh")])
      (accept_move (GameState.mk emptyBoard Mark.X 0 0) 0 0) rfl).1
    (Or.inl rfl)

/-- C3: the consecutive-failure counter resets to 0 on any accepted move and
grows by exactly 1 over a ply whose primary and fallback submissions are both
rejected; a state whose counter has reached the ceiling 3 ends the game loop
at once — even with empty cells remaining — with no winner declared
(`Terminal(abandoned)`). -/
theorem failure_counter_spec :
    (∀ (require_onchain : Bool) (s : GameState) (row col : Fin 3) (k : Nat)
        (r1 r2 : Json) (s' : GameState),
      play_ply require_onchain s row col k (Except.ok r1) (Except.ok r2) =
        Except.ok s' →
      ((execute_move require_onchain r1 = true ∨ execute_move require_onchain r2 = true) →
        s'.consecutive_failures = 0) ∧
      (execute_move require_onchain r1 = false →
        execute_move require_onchain r2 = false →
        s'.consecutive_failures = s.consecutive_failures + 1)) ∧
    (∀ (require_onchain : Bool) (fuel : Nat) (s : GameState) (ins : Nat → PlyInput),
      s.consecutive_failures = 3 →
      (∃ p : Fin 3 × Fin 3, s.board p.1 p.2 = none) →
      run_game require_onchain (fuel + 1) s ins = Except.ok s) := by
  constructor
  · intro require_onchain s row col k r1 r2 s' h
    by_cases h1 : execute_move require_onchain r1 = true
    · simp only [play_ply, h1, if_true, Except.ok.injEq] at h
      subst h
      refine ⟨fun _ => rfl, fun hf1 _ => ?_⟩
      rw [h1] at hf1; cases hf1
    · have h1' : execute_move require_onchain r1 = false := by simpa using h1
      simp only [play_ply, h1', Bool.false_eq_true, if_false] at h
      by_cases h2 : execute_move require_onchain r2 = true
      · simp only [h2, if_true, Except.ok.injEq] at h
        subst h
        refine ⟨fun _ => rfl, fun _ hf2 => ?_⟩
        rw [h2] at hf2; cases hf2
      · have h2' : execute_move require_onchain r2 = false := by simpa using h2
        simp only [h2', Bool.false_eq_true, if_false, Except.ok.injEq] at h
        subst h
        exact ⟨fun hor => by rcases hor with ha | ha <;> rw [h1'] at * <;> simp_all,
          fun _ _ => rfl⟩
  · intro require_onchain fuel s ins hcf _
    unfold run_game
    rw [if_neg]
    rintro ⟨_, h3⟩
    rw [hcf] at h3
    exact absurd h3 (by omega)

/-- Witness for C3: an accepted move on the empty board resets the counter,
and a state with counter 3 and all nine cells empty ends the loop at once. -/
theorem failure_counter_spec_witness :
    (accept_move (GameState.mk emptyBoard Mark.X 0 0) 0 0).consecutive_failures = 0 ∧
    run_game false 1 (GameState.mk emptyBoard Mark.X 0 3)
      (fun _ => PlyInput.mk (0, 0) 0 (Except.ok Json.null) (Except.ok Json.null)) =
      Except.ok (GameState.mk emptyBoard Mark.X 0 3) :=
  ⟨(failure_counter_spec.1 false (GameState.mk emptyBoard Mark.X 0 0) 0 0 0
      (Json.obj [("result", Json.str "abcdefgh")])
      (Json.obj [("result", Json.str "abcdefgh")])
      (accept_move (GameState.mk emptyBoard Mark.X 0 0) 0 0) rfl).1 (Or.inl rfl),
   failure_counter_spec.2 false 0 (GameState.mk emptyBoard Mark.X 0 3)
     (fun _ => PlyInput.mk (0, 0) 0 (Except.ok Json.null) (Except.ok Json.null)) rfl
     ⟨(0, 0), rfl⟩⟩

/-- C9: local validation accepts a candidate exactly when both coordinates are
present, lie in `[0, 2]`, and the target cell is empty. -/
theorem is_valid_move_candidate_iff (b : Board) (row col : Option Int) :
    is_valid_move_candidate b row col = true ↔
      ∃ i j : Fin 3, row = some (i.val : Int) ∧ col = some (j.val : Int) ∧ b i j = none := by
  cases row with
  | none =>
    simp only [is_valid_move_candidate, Bool.false_eq_true, false_iff]
    rintro ⟨i, j, hi, _, _⟩
    cases hi
  | some r =>
    cases col with
    | none =>
      simp only [is_valid_move_candidate, Bool.false_eq_true, false_iff]
      rintro ⟨i, j, _, hj, _⟩
      cases hj
    | some c =>
      simp only [is_valid_move_candidate]
      by_cases h : 0 ≤ r ∧ r ≤ 2 ∧ 0 ≤ c ∧ c ≤ 2
      · rw [dif_pos h]
        rw [Option.isNone_iff_eq_none]
        constructor
        · intro hb
          refine ⟨⟨r.toNat, by omega⟩, ⟨c.toNat, by omega⟩, ?_, ?_, hb⟩
          · rw [Int.toNat_of_nonneg h.1]
          · rw [Int.toNat_of_nonneg h.2.2.1]
        · rintro ⟨i, j, hi, hj, hb⟩
          have hri : r = (i.val : Int) := by injection hi
          have hcj : c = (j.val : Int) := by injection hj
          have hri' : r.toNat = i.val := by omega
          have hcj' : c.toNat = j.val := by omega
          have : (⟨r.toNat, by omega⟩ : Fin 3) = i := Fin.ext hri'
          rw [this]
          have : (⟨c.toNat, by omega⟩ : Fin 3) = j := Fin.ext hcj'
          rw [this]
          exact hb
      · rw [dif_neg h]
        simp only [Bool.false_eq_true, false_iff]
        rintro ⟨i, j, hi, hj, _⟩
        have hri : r = (i.val : Int) := by injection hi
        have hcj : c = (j.val : Int) := by injection hj
        have h3i : i.val < 3 := i.isLt
        have h3j : j.val < 3 := j.isLt
        exact h (by constructor <;> omega)

/-- A fully-equal non-empty line occupied by `m`: one of the three rows, three
columns or two diagonals holds `m` in all three cells. -/
def winning_line (b : Board) (m : Mark) : Prop :=
  (b 0 0 = some m ∧ b 0 1 = some m ∧ b 0 2 = some m) ∨
  (b 1 0 = some m ∧ b 1 1 = some m ∧ b 1 2 = some m) ∨
  (b 2 0 = some m ∧ b 2 1 = some m ∧ b 2 2 = some m) ∨
  (b 0 0 = some m ∧ b 1 0 = some m ∧ b 2 0 = some m) ∨
  (b 0 1 = some m ∧ b 1 1 = some m ∧ b 2 1 = some m) ∨
  (b 0 2 = some m ∧ b 1 2 = some m ∧ b 2 2 = some m) ∨
  (b 0 0 = some m ∧ b 1 1 = some m ∧ b 2 2 = some m) ∨
  (b 0 2 = some m ∧ b 1 1 = some m ∧ b 2 0 = some m)

instance (b : Board) (m : Mark) : Decidable (winning_line b m) := by
  unfold winning_line; infer_instance

/-- All nine cells are occupied (`is_full` in `check_winner`). -/
def board_full (b : Board) : Prop := ∀ i j : Fin 3, b i j ≠ none

instance (b : Board) : Decidable (board_full b) := by
  unfold board_full; infer_instance

/-- When none of the eight line conditions of `check_winner` holds, no mark
occupies a fully-equal non-empty line. -/
theorem not_winning_of_neg (b : Board)
    (h1 : ¬(b 0 0 = b 0 1 ∧ b 0 1 = b 0 2 ∧ b 0 0 ≠ none))
    (h2 : ¬(b 1 0 = b 1 1 ∧ b 1 1 = b 1 2 ∧ b 1 0 ≠ none))
    (h3 : ¬(b 2 0 = b 2 1 ∧ b 2 1 = b 2 2 ∧ b 2 0 ≠ none))
    (h4 : ¬(b 0 0 = b 1 0 ∧ b 1 0 = b 2 0 ∧ b 0 0 ≠ none))
    (h5 : ¬(b 0 1 = b 1 1 ∧ b 1 1 = b 2 1 ∧ b 0 1 ≠ none))
    (h6 : ¬(b 0 2 = b 1 2 ∧ b 1 2 = b 2 2 ∧ b 0 2 ≠ none))
    (h7 : ¬(b 0 0 = b 1 1 ∧ b 1 1 = b 2 2 ∧ b 0 0 ≠ none))
    (h8 : ¬(b 0 2 = b 1 1 ∧ b 1 1 = b 2 0 ∧ b 0 2 ≠ none)) :
    ¬∃ m, winning_line b m := by
  rintro ⟨m, hm⟩
  rcases hm with h | h | h | h | h | h | h | h
  · exact h1 ⟨h.1.trans h.2.1.symm, h.2.1.trans h.2.2.symm, by simp [h.1]⟩
  · exact h2 ⟨h.1.trans h.2.1.symm, h.2.1.trans h.2.2.symm, by simp [h.1]⟩
  · exact h3 ⟨h.1.trans h.2.1.symm, h.2.1.trans h.2.2.symm, by simp [h.1]⟩
  · exact h4 ⟨h.1.trans h.2.1.symm, h.2.1.trans h.2.2.symm, by simp [h.1]⟩
  · exact h5 ⟨h.1.trans h.2.1.symm, h.2.1.trans h.2.2.symm, by simp [h.1]⟩
  · exact h6 ⟨h.1.trans h.2.1.symm, h.2.1.trans h.2.2.symm, by simp [h.1]⟩
  · exact h7 ⟨h.1.trans h.2.1.symm, h.2.1.trans h.2.2.symm, by simp [h.1]⟩
  · exact h8 ⟨h.1.trans h.2.1.symm, h.2.1.trans h.2.2.symm, by simp [h.1]⟩

/-- The four facts of C4 all follow once `check_winner` is known to report a
winner that does occupy a line. -/
theorem winner_leaf (b : Board) (m0 : Mark)
    (hwin : check_winner b = some (GameResult.winner m0))
    (hline : winning_line b m0) :
    (∀ m, check_winner b = some (GameResult.winner m) → winning_line b m) ∧
    ((∃ m, winning_line b m) → ∃ m, check_winner b = some (GameResult.winner m)) ∧
    (check_winner b = some GameResult.draw ↔ board_full b ∧ ¬∃ m, winning_line b m) ∧
    (check_winner b = none ↔ ¬board_full b ∧ ¬∃ m, winning_line b m) := by
  refine ⟨?_, fun _ => ⟨m0, hwin⟩, ?_, ?_⟩
  · intro m hm
    rw [hwin] at hm
    simp only [Option.some.injEq, GameResult.winner.injEq] at hm
    exact hm ▸ hline
  · constructor
    · intro hh; rw [hwin] at hh; simp at hh
    · intro hh; exact absurd ⟨m0, hline⟩ hh.2
  · constructor
    · intro hh; rw [hwin] at hh; cases hh
    · intro hh; exact absurd ⟨m0, hline⟩ hh.2

/-- C4: `check_winner` returns the mark occupying a fully-equal non-empty row,
column or diagonal whenever one exists; returns `Draw` exactly when the board
is full and no such line exists; and returns nothing exactly when the board is
not full and no such line exists. -/
theorem check_winner_spec (b : Board) :
    (∀ m, check_winner b = some (GameResult.winner m) → winning_line b m) ∧
    ((∃ m, winning_line b m) → ∃ m, check_winner b = some (GameResult.winner m)) ∧
    (check_winner b = some GameResult.draw ↔ board_full b ∧ ¬∃ m, winning_line b m) ∧
    (check_winner b = none ↔ ¬board_full b ∧ ¬∃ m, winning_line b m) := by
  by_cases h1 : b 0 0 = b 0 1 ∧ b 0 1 = b 0 2 ∧ b 0 0 ≠ none
  · obtain ⟨m0, hm0⟩ := Option.ne_none_iff_exists'.mp h1.2.2
    have hwin : check_winner b = some (GameResult.winner m0) := by
      unfold check_winner; rw [if_pos h1, hm0, Option.map_some']
    exact winner_leaf b m0 hwin (Or.inl ⟨hm0, h1.1 ▸ hm0, (h1.1.trans h1.2.1) ▸ hm0⟩)
  by_cases h2 : b 1 0 = b 1 1 ∧ b 1 1 = b 1 2 ∧ b 1 0 ≠ none
  · obtain ⟨m0, hm0⟩ := Option.ne_none_iff_exists'.mp h2.2.2
    have hwin : check_winner b = some (GameResult.winner m0) := by
      unfold check_winner; rw [if_neg h1, if_pos h2, hm0, Option.map_some']
    exact winner_leaf b m0 hwin
      (Or.inr (Or.inl ⟨hm0, h2.1 ▸ hm0, (h2.1.trans h2.2.1) ▸ hm0⟩))
  by_cases h3 : b 2 0 = b 2 1 ∧ b 2 1 = b 2 2 ∧ b 2 0 ≠ none
  · obtain ⟨m0, hm0⟩ := Option.ne_none_iff_exists'.mp h3.2.2
    have hwin : check_winner b = some (GameResult.winner m0) := by
      unfold check_winner; rw [if_neg h1, if_neg h2, if_pos h3, hm0, Option.map_some']
    exact winner_leaf b m0 hwin
      (Or.inr (Or.inr (Or.inl ⟨hm0, h3.1 ▸ hm0, (h3.1.trans h3.2.1) ▸ hm0⟩)))
  by_cases h4 : b 0 0 = b 1 0 ∧ b 1 0 = b 2 0 ∧ b 0 0 ≠ none
  · obtain ⟨m0, hm0⟩ := Option.ne_none_iff_exists'.mp h4.2.2
    have hwin : check_winner b = some (GameResult.winner m0) := by
      unfold check_winner
      rw [if_neg h1, if_neg h2, if_neg h3, if_pos h4, hm0, Option.map_some']
    exact winner_leaf b m0 hwin
      (Or.inr (Or.inr (Or.inr (Or.inl ⟨hm0, h4.1 ▸ hm0, (h4.1.trans h4.2.1) ▸ hm0⟩))))
  by_cases h5 : b 0 1 = b 1 1 ∧ b 1 1 = b 2 1 ∧ b 0 1 ≠ none
  · obtain ⟨m0, hm0⟩ := Option.ne_none_iff_exists'.mp h5.2.2
    have hwin : check_winner b = some (GameResult.winner m0) := by
      unfold check_winner
      rw [if_neg h1, if_neg h2, if_neg h3, if_neg h4, if_pos h5, hm0, Option.map_some']
    exact winner_leaf b m0 hwin
      (Or.inr (Or.inr (Or.inr (Or.inr (Or.inl
        ⟨hm0, h5.1 ▸ hm0, (h5.1.trans h5.2.1) ▸ hm0⟩)))))
  by_cases h6 : b 0 2 = b 1 2 ∧ b 1 2 = b 2 2 ∧ b 0 2 ≠ none
  · obtain ⟨m0, hm0⟩ := Option.ne_none_iff_exists'.mp h6.2.2
    have hwin : check_winner b = some (GameResult.winner m0) := by
      unfold check_winner
      rw [if_neg h1, if_neg h2, if_neg h3, if_neg h4, if_neg h5, if_pos h6, hm0,
        Option.map_some']
    exact winner_leaf b m0 hwin
      (Or.inr (Or.inr (Or.inr (Or.inr (Or.inr (Or.inl
        ⟨hm0, h6.1 ▸ hm0, (h6.1.trans h6.2.1) ▸ hm0⟩))))))
  by_cases h7 : b 0 0 = b 1 1 ∧ b 1 1 = b 2 2 ∧ b 0 0 ≠ none
  · obtain ⟨m0, hm0⟩ := Option.ne_none_iff_exists'.mp h7.2.2
    have hwin : check_winner b = some (GameResult.winner m0) := by
      unfold check_winner
      rw [if_neg h1, if_neg h2, if_neg h3, if_neg h4, if_neg h5, if_neg h6, if_pos h7, hm0,
        Option.map_some']
    exact winner_leaf b m0 hwin
      (Or.inr (Or.inr (Or.inr (Or.inr (Or.inr (Or.inr (Or.inl
        ⟨hm0, h7.1 ▸ hm0, (h7.1.trans h7.2.1) ▸ hm0⟩)))))))
  by_cases h8 : b 0 2 = b 1 1 ∧ b 1 1 = b 2 0 ∧ b 0 2 ≠ none
  · obtain ⟨m0, hm0⟩ := Option.ne_none_iff_exists'.mp h8.2.2
    have hwin : check_winner b = some (GameResult.winner m0) := by
      unfold check_winner
      rw [if_neg h1, if_neg h2, if_neg h3, if_neg h4, if_neg h5, if_neg h6, if_neg h7,
        if_pos h8, hm0, Option.map_some']
    exact winner_leaf b m0 hwin
      (Or.inr (Or.inr (Or.inr (Or.inr (Or.inr (Or.inr (Or.inr
        ⟨hm0, h8.1 ▸ hm0, (h8.1.trans h8.2.1) ▸ hm0⟩)))))))
  have hnl : ¬∃ m, winning_line b m := not_winning_of_neg b h1 h2 h3 h4 h5 h6 h7 h8
  by_cases hful : board_full b
  · have hdr : check_winner b = some GameResult.draw := by
      unfold check_winner
      rw [if_neg h1, if_neg h2, if_neg h3, if_neg h4, if_neg h5, if_neg h6, if_neg h7,
        if_neg h8]
      exact if_pos hful
    refine ⟨?_, fun hex => absurd hex hnl, ?_, ?_⟩
    · intro m hm; rw [hdr] at hm; simp at hm
    · exact ⟨fun _ => ⟨hful, hnl⟩, fun _ => hdr⟩
    · constructor
      · intro hh; rw [hdr] at hh; cases hh
      · intro hh; exact absurd hful hh.1
  · have hno : check_winner b = none := by
      unfold check_winner
      rw [if_neg h1, if_neg h2, if_neg h3, if_neg h4, if_neg h5, if_neg h6, if_neg h7,
        if_neg h8]
      exact if_neg hful
    refine ⟨?_, fun hex => absurd hex hnl, ?_, ?_⟩
    · intro m hm; rw [hno] at hm; cases hm
    · constructor
      · intro hh; rw [hno] at hh; cases hh
      · intro hh; exact absurd hh.1 hful
    · exact ⟨fun _ => ⟨hful, hnl⟩, fun _ => hno⟩

/-- Witness for C4 at the spec scenario board after X plays (0, 2):
`[[X,X,X],[O,O,None],[None,None,None]]` has winner X. -/
theorem check_winner_spec_witness :
    check_winner (mkBoard (some Mark.X) (some Mark.X) (some Mark.X)
        (some Mark.O) (some Mark.O) none none none none) =
      some (GameResult.winner Mark.X) ∧
    winning_line (mkBoard (some Mark.X) (some Mark.X) (some Mark.X)
        (some Mark.O) (some Mark.O) none none none none) Mark.X :=
  ⟨by decide,
   (check_winner_spec (mkBoard (some Mark.X) (some Mark.X) (some Mark.X)
       (some Mark.O) (some Mark.O) none none none none)).1 Mark.X (by decide)⟩

/-! Facts about `get_default_move` and the fallback adjustment. -/

theorem mem_allCells (p : Fin 3 × Fin 3) : p ∈ allCells := by
  rcases p with ⟨i, j⟩
  fin_cases i <;> fin_cases j <;> decide

theorem mem_empty_cells {b : Board} {p : Fin 3 × Fin 3} :
    p ∈ empty_cells b ↔ b p.1 p.2 = none := by
  rw [empty_cells, List.mem_filter]
  constructor
  · intro h
    exact Option.isNone_iff_eq_none.mp h.2
  · intro h
    exact ⟨mem_allCells p, Option.isNone_iff_eq_none.mpr h⟩

theorem choice_singleton (k : Nat) (x : Fin 3 × Fin 3) : choice k [x] = x := by
  unfold choice
  rw [List.length_singleton, Nat.mod_one]
  rfl

theorem choice_mem {l : List (Fin 3 × Fin 3)} (h : l ≠ []) (k : Nat) :
    choice k l ∈ l := by
  have hk : k % l.length < l.length := Nat.mod_lt _ (List.length_pos.mpr h)
  rw [choice, List.getD_eq_getElem l _ hk]
  exact List.getElem_mem hk

/-- C6 counterexample: with the center occupied and several corners free, the
`random.choice` draw (made explicit as the `k` parameter) changes the cell
`get_default_move` returns, so the picker is not deterministic in the board. -/
theorem get_default_move_not_deterministic :
    get_default_move (mkBoard none none none none (some Mark.X) none none none none) 0 =
      ((0 : Fin 3), (0 : Fin 3)) ∧
    get_default_move (mkBoard none none none none (some Mark.X) none none none none) 1 =
      ((0 : Fin 3), (2 : Fin 3)) ∧
    get_default_move (mkBoard none none none none (some Mark.X) none none none none) 0 ≠
      get_default_move (mkBoard none none none none (some Mark.X) none none none none) 1 := by
  refine ⟨by decide, by decide, by decide⟩

/-- When an empty cell other than the just-rejected one exists, the
alternative scan of `play_game` finds one. -/
theorem find_alternative_spec (b : Board) (row col : Fin 3)
    (h : ∃ p : Fin 3 × Fin 3, b p.1 p.2 = none ∧ p ≠ (row, col)) :
    ∃ q, find_alternative b row col = some q ∧ b q.1 q.2 = none ∧ q ≠ (row, col) := by
  obtain ⟨p, hp, hne⟩ := h
  cases hf : find_alternative b row col with
  | none =>
    exfalso
    have hnone := List.find?_eq_none.mp hf p (mem_allCells p)
    apply hnone
    simp [hp, hne]
  | some q =>
    refine ⟨q, rfl, ?_, ?_⟩
    · have hq := List.find?_some hf
      simp only [Bool.and_eq_true, Option.isNone_iff_eq_none, Bool.not_eq_eq_eq_not,
        Bool.not_true, decide_eq_false_iff_not] at hq
      exact hq.1
    · have hq := List.find?_some hf
      simp only [Bool.and_eq_true, Option.isNone_iff_eq_none, Bool.not_eq_eq_eq_not,
        Bool.not_true, decide_eq_false_iff_not] at hq
      exact hq.2

/-- C6 as amended: for every board with an empty cell and every `random.choice`
draw, `get_default_move` returns an empty cell; it returns the center whenever
the center is empty, otherwise some unoccupied corner whenever one exists,
otherwise some unoccupied edge whenever one exists (within a class the pick is
randomized, not deterministic); and the fallback actually submitted after a
rejection differs from the just-rejected coordinate whenever a different empty
cell exists. -/
theorem get_default_move_spec (b : Board) (k : Nat) (row col : Fin 3)
    (h : ∃ p : Fin 3 × Fin 3, b p.1 p.2 = none) :
    b (get_default_move b k).1 (get_default_move b k).2 = none ∧
    (b 1 1 = none → get_default_move b k = (1, 1)) ∧
    (b 1 1 ≠ none → (∃ p ∈ cornerList, b p.1 p.2 = none) →
      get_default_move b k ∈ cornerList) ∧
    (b 1 1 ≠ none → (∀ p ∈ cornerList, b p.1 p.2 ≠ none) →
      (∃ p ∈ edgeList, b p.1 p.2 = none) → get_default_move b k ∈ edgeList) ∧
    ((∃ p : Fin 3 × Fin 3, b p.1 p.2 = none ∧ p ≠ (row, col)) →
      submitted_fallback b row col k ≠ (row, col)) := by
  obtain ⟨p0, hp0⟩ := h
  have hmem0 : p0 ∈ empty_cells b := mem_empty_cells.mpr hp0
  have hEne : empty_cells b ≠ [] := List.ne_nil_of_mem hmem0
  have hEmp : (empty_cells b).isEmpty = false := by
    cases hE : (empty_cells b).isEmpty with
    | false => rfl
    | true => exact absurd (List.isEmpty_iff.mp hE) hEne
  have hfb : ∀ hx : ∃ p : Fin 3 × Fin 3, b p.1 p.2 = none ∧ p ≠ (row, col),
      submitted_fallback b row col k ≠ (row, col) := by
    intro hx
    unfold submitted_fallback
    by_cases hd : get_default_move b k = (row, col)
    · rw [if_pos hd]
      obtain ⟨q, hq, _, hqne⟩ := find_alternative_spec b row col hx
      rw [hq]
      exact hqne
    · rw [if_neg hd]
      exact hd
  by_cases hc : b 1 1 = none
  · have hdec : decide (((1, 1) : Fin 3 × Fin 3) ∈ empty_cells b) = true :=
      decide_eq_true (mem_empty_cells.mpr hc)
    have hac : available_center b = [(1, 1)] := by
      unfold available_center centerList
      simp only [List.filter_cons, List.filter_nil, hdec, if_true]
    have hgd : get_default_move b k = (1, 1) := by
      unfold get_default_move
      rw [hEmp, hac]
      simp [choice_singleton]
    refine ⟨?_, fun _ => hgd, fun hcon _ => absurd hc hcon, fun hcon _ _ => absurd hc hcon,
      hfb⟩
    rw [hgd]
    exact hc
  · have hdec : decide (((1, 1) : Fin 3 × Fin 3) ∈ empty_cells b) = false :=
      decide_eq_false (fun hm => hc (mem_empty_cells.mp hm))
    have hac : available_center b = [] := by
      unfold available_center centerList
      simp only [List.filter_cons, List.filter_nil, hdec, Bool.false_eq_true, if_false]
    by_cases hcor : ∃ p ∈ cornerList, b p.1 p.2 = none
    · have hacne : available_corners b ≠ [] := by
        obtain ⟨q, hq, hqe⟩ := hcor
        exact List.ne_nil_of_mem
          (List.mem_filter_of_mem hq (by simp [mem_empty_cells, hqe]))
      have hA : (available_corners b).isEmpty = false := by
        cases hA : (available_corners b).isEmpty with
        | false => rfl
        | true => exact absurd (List.isEmpty_iff.mp hA) hacne
      have hgd : get_default_move b k = choice k (available_corners b) := by
        unfold get_default_move
        rw [hEmp, hac]
        simp [hA]
      have hcm := choice_mem hacne k
      have hsub : choice k (available_corners b) ∈ cornerList :=
        (List.mem_filter.mp hcm).1
      have hemc : choice k (available_corners b) ∈ empty_cells b := by
        have := (List.mem_filter.mp hcm).2
        simpa using this
      refine ⟨?_, fun hcc => absurd hcc hc, fun _ _ => ?_, fun _ hall _ => ?_, hfb⟩
      · rw [hgd]
        exact mem_empty_cells.mp hemc
      · rw [hgd]
        exact hsub
      · exact absurd (mem_empty_cells.mp hemc) (hall _ hsub)
    · have hacor : available_corners b = [] := by
        rw [available_corners, List.filter_eq_nil_iff]
        intro q hq
        simp only [decide_eq_true_eq, mem_empty_cells]
        exact fun hqe => hcor ⟨q, hq, hqe⟩
      by_cases hedg : ∃ p ∈ edgeList, b p.1 p.2 = none
      · have haene : available_edges b ≠ [] := by
          obtain ⟨q, hq, hqe⟩ := hedg
          exact List.ne_nil_of_mem
            (List.mem_filter_of_mem hq (by simp [mem_empty_cells, hqe]))
        have hA : (available_edges b).isEmpty = false := by
          cases hA : (available_edges b).isEmpty with
          | false => rfl
          | true => exact absurd (List.isEmpty_iff.mp hA) haene
        have hgd : get_default_move b k = choice k (available_edges b) := by
          unfold get_default_move
          rw [hEmp, hac, hacor]
          simp [hA]
        have hcm := choice_mem haene k
        have hsub : choice k (available_edges b) ∈ edgeList :=
          (List.mem_filter.mp hcm).1
        have heme : choice k (available_edges b) ∈ empty_cells b := by
          have := (List.mem_filter.mp hcm).2
          simpa using this
        refine ⟨?_, fun hcc => absurd hcc hc, fun _ hex => absurd hex hcor,
          fun _ _ _ => ?_, hfb⟩
        · rw [hgd]
          exact mem_empty_cells.mp heme
        · rw [hgd]
          exact hsub
      · have haedg : available_edges b = [] := by
          rw [available_edges, List.filter_eq_nil_iff]
          intro q hq
          simp only [decide_eq_true_eq, mem_empty_cells]
          exact fun hqe => hedg ⟨q, hq, hqe⟩
        have hgd : get_default_move b k = choice k (empty_cells b) := by
          unfold get_default_move
          rw [hEmp, hac, hacor, haedg]
          simp
        refine ⟨?_, fun hcc => absurd hcc hc, fun _ hex => absurd hex hcor,
          fun _ _ hex => absurd hex hedg, hfb⟩
        rw [hgd]
        exact mem_empty_cells.mp (choice_mem hEne k)

/-- Witness for C6's amended theorem: on the empty board every draw picks the
center. -/
theorem get_default_move_spec_witness : get_default_move emptyBoard 5 = (1, 1) :=
  (get_default_move_spec emptyBoard 5 0 0 ⟨(1, 1), rfl⟩).2.1 rfl

/-! Facts about the search order of `extract_tx_hash`. -/

theorem findDirectKey_eq (keys : List String) (rf : List (String × Json)) :
    findDirectKey keys rf = keys.findSome? (fun key =>
      match lookupField key rf with
      | some v => if v.isTruthy then some v else none
      | none => none) := by
  induction keys with
  | nil => rfl
  | cons key keys ih =>
    rw [List.findSome?_cons]
    cases hl : lookupField key rf with
    | none => rw [findDirectKey, hl]; exact ih
    | some v =>
      rw [findDirectKey, hl]
      cases hv : v.isTruthy with
      | true => simp only [hv, if_true]
      | false =>
        simp only [hv, Bool.false_eq_true, if_false]
        exact ih

theorem findReceiptKey_eq (keys : List String) (rec : List (String × Json)) :
    findReceiptKey keys rec = keys.findSome? (fun key => lookupField key rec) := by
  induction keys with
  | nil => rfl
  | cons key keys ih =>
    rw [List.findSome?_cons]
    cases hl : lookupField key rec with
    | none => rw [findReceiptKey, hl]; exact ih
    | some v => rw [findReceiptKey, hl]

/-- C7 counterexample: a bare string result shorter than 8 characters is
non-empty (truthy) yet yields no transaction identifier, contradicting the
claim that a bare string result is returned as the identifier itself. -/
theorem extract_tx_hash_short_string :
    extract_tx_hash (Json.obj [("result", Json.str "short")]) = none ∧
    Json.isTruthy (Json.str "short") = true :=
  ⟨rfl, rfl⟩

/-- C7 as amended: on a response whose `result` field is present,
`extract_tx_hash` searches in a fixed order — the direct fields `tx_hash`,
`txid`, `tx`, `transaction`, `hash` (first key present with a truthy value),
then the nested `receipt` fields `tx_hash`, `txid`, `hash` (first key
present), and a bare string result is returned as the identifier itself only
when it has at least 8 characters; any other result shape yields nothing. -/
theorem extract_tx_hash_search_order (fields : List (String × Json)) (result : Json)
    (h : lookupField "result" fields = some result) :
    extract_tx_hash (Json.obj fields) =
      match result with
      | Json.obj rf =>
        (match directKeys.findSome? (fun key =>
            match lookupField key rf with
            | some v => if v.isTruthy then some v else none
            | none => none) with
         | some v => some v
         | none =>
           match lookupField "receipt" rf with
           | some (Json.obj rec) =>
             receiptKeys.findSome? (fun key => lookupField key rec)
           | _ => none)
      | Json.str s => if 8 ≤ s.length then some (Json.str s) else none
      | _ => none := by
  simp only [extract_tx_hash, h]
  cases result with
  | null => rfl
  | bool bv => cases bv <;> rfl
  | num n =>
    cases hn : Json.isTruthy (Json.num n) with
    | true => rfl
    | false => rfl
  | str s =>
    by_cases hs : s = ""
    · subst hs
      rfl
    · rw [if_pos (by simp [Json.isTruthy, hs])]
  | arr xs => cases xs <;> rfl
  | obj rf =>
    cases rf with
    | nil => rfl
    | cons hd tl =>
      rw [if_pos (by rfl)]
      simp only [findDirectKey_eq, findReceiptKey_eq]

/-- Witness for C7's amended theorem: a direct field with a falsy value is
skipped and the next truthy direct field, `transaction`, wins over the later
`hash`. -/
theorem extract_tx_hash_search_order_witness :
    extract_tx_hash (Json.obj [("result", Json.obj
        [("tx", Json.str ""), ("transaction", Json.str "abcdefgh"),
         ("hash", Json.str "zzzzzzzz")])]) = some (Json.str "abcdefgh") :=
  (extract_tx_hash_search_order
    [("result", Json.obj [("tx", Json.str ""), ("transaction", Json.str "abcdefgh"),
      ("hash", Json.str "zzzzzzzz")])]
    (Json.obj [("tx", Json.str ""), ("transaction", Json.str "abcdefgh"),
      ("hash", Json.str "zzzzzzzz")]) rfl).trans rfl

end TTT
